import Mathlib

/-!
Verification development for the mcp-client-slackbot repository.

Text is modelled as `List Char`.  Python string literals from the source are
written as `"...".data`.  Fallible Python code is modelled with `Except PyErr`;
machine-level details (network transport, asyncio scheduling, logging) are
modelled as oracle parameters supplying the observable behaviour of the
external collaborators (Slack, the OpenAI-compatible LLM endpoint, MCP server
processes, the Sora video provider).
-/

set_option maxRecDepth 20000

/-! ### Basic text utilities (Python `str` operations) -/

/-- Python `str.strip` whitespace set (ASCII part). -/
def pyWS (c : Char) : Bool :=
  c = ' ' || c = '\t' || c = '\n' || c = '\r' || c = '\x0b' || c = '\x0c'

/-- Python `s.strip()`. -/
def pyStrip (s : List Char) : List Char :=
  ((s.dropWhile pyWS).reverse.dropWhile pyWS).reverse

/-- Python `s.lower()` (ASCII). -/
def pyLower (s : List Char) : List Char := s.map Char.toLower

/-- Split a text at the first occurrence of `tag`: returns the part strictly
before the occurrence and the part strictly after it.  `none` when `tag` does
not occur.  This is the primitive behind the regex searches of
`normalization.py` (all its patterns are plain delimiter matches). -/
def findSplit (tag : List Char) : List Char → Option (List Char × List Char)
  | [] => if tag = [] then some ([], []) else none
  | c :: rest =>
    if tag.isPrefixOf (c :: rest) then some ([], (c :: rest).drop tag.length)
    else
      match findSplit tag rest with
      | some (pre, post) => some (c :: pre, post)
      | none => none

/-- Whether `tag` occurs in `s` (Python `tag in s`). -/
def occursIn (tag s : List Char) : Bool := (findSplit tag s).isSome

/-- `re.search` of a non-greedy delimited pattern `open(.*?)close` (with
DOTALL): the text before the first occurrence of `openT`, the captured group
(up to the first `closeT` after it), and the text after the close tag.  If the
first `openT` has no `closeT` after it, no later `openT` can have one either,
so the whole search fails. -/
def searchTag (openT closeT s : List Char) : Option (List Char × List Char × List Char) :=
  match findSplit openT s with
  | none => none
  | some (pre, rest) =>
    match findSplit closeT rest with
    | none => none
    | some (inner, post) => some (pre, inner, post)

/-- `re.sub(pattern, "", s)` for a delimited pattern: remove all
non-overlapping matches left to right (fuel-recursive; each removal consumes
at least one character, so `s.length` fuel suffices). -/
def removeTaggedF (openT closeT : List Char) : Nat → List Char → List Char
  | 0, s => s
  | fuel + 1, s =>
    match searchTag openT closeT s with
    | some (pre, _, post) => pre ++ removeTaggedF openT closeT fuel post
    | none => s

def removeTagged (openT closeT s : List Char) : List Char :=
  removeTaggedF openT closeT s.length s

/-- `re.findall` of the fenced pattern: the captured groups of all
non-overlapping matches, left to right. -/
def fencedBlocksF (openT closeT : List Char) : Nat → List Char → List (List Char)
  | 0, _ => []
  | fuel + 1, s =>
    match searchTag openT closeT s with
    | some (_, inner, post) => inner :: fencedBlocksF openT closeT fuel post
    | none => []

def fencedBlocks (openT closeT s : List Char) : List (List Char) :=
  fencedBlocksF openT closeT s.length s

/-- Python `s.replace(pat, "")`: remove all occurrences, left to right. -/
def removeAllF (pat : List Char) : Nat → List Char → List Char
  | 0, s => s
  | fuel + 1, s =>
    match findSplit pat s with
    | some (pre, post) => pre ++ removeAllF pat fuel post
    | none => s

def removeAll (pat s : List Char) : List Char := removeAllF pat s.length s

/-- Python `s.split(pat)` (split on every occurrence of a substring). -/
def splitSubF (pat : List Char) : Nat → List Char → List (List Char)
  | 0, s => [s]
  | fuel + 1, s =>
    match findSplit pat s with
    | some (pre, post) => pre :: splitSubF pat fuel post
    | none => [s]

def splitSub (pat s : List Char) : List (List Char) := splitSubF pat s.length s

/-- Python `s.split(c, 1)` for a single character: split at the first
occurrence only. -/
def splitOnceChar (c : Char) (s : List Char) : List (List Char) :=
  match findSplit [c] s with
  | some (pre, post) => [pre, post]
  | none => [s]

/-- `l[-n:]` — the last `n` elements (used by the history trim). -/
def takeLast (n : Nat) (l : List α) : List α := l.drop (l.length - n)

/-- Integer rendering, as Python `str(int)`. -/
def intToChars (i : Int) : List Char :=
  if i < 0 then '-' :: (Nat.toDigits 10 i.natAbs) else Nat.toDigits 10 i.natAbs

/-! ### JSON values and `json.loads`

Model of the Python `json` module as used by the repository.  As in Python,
integer literals decode to `int` and literals with a fraction or exponent to
`float`; a float is kept exactly as mantissa × 10^exponent (the binary
rounding of Python floats, and the non-standard `NaN`/`Infinity` extensions of
`json.loads`, are not representable and are not exercised by any theorem
below).  Objects are association lists in insertion order with
last-duplicate-wins, matching `dict` construction. -/

inductive JVal where
  | null
  | bool (b : Bool)
  | int (n : Int)
  | float (mantissa : Int) (exp10 : Int)
  | str (s : List Char)
  | arr (elems : List JVal)
  | obj (fields : List (List Char × JVal))

/-- Python `dict` assignment `d[k] = v`: replace in place if the key exists,
else append. -/
def assocInsert [BEq κ] (d : List (κ × α)) (k : κ) (v : α) : List (κ × α) :=
  match d with
  | [] => [(k, v)]
  | (k', v') :: rest =>
    if k' == k then (k', v) :: rest else (k', v') :: assocInsert rest k v

/-- Python `dict.get(k)` (`none` = Python `None`). -/
def objGet (d : List (List Char × JVal)) (k : List Char) : Option JVal :=
  match d.find? (fun kv => kv.1 == k) with
  | some kv => some kv.2
  | none => none

/-- Python `dict.get(k, default)`. -/
def objGetD (d : List (List Char × JVal)) (k : List Char) (dflt : JVal) : JVal :=
  match objGet d k with
  | some v => v
  | none => dflt

/-- JSON whitespace accepted by `json.loads` between tokens. -/
def jsonWS (c : Char) : Bool := c = ' ' || c = '\t' || c = '\n' || c = '\r'

def skipWS (s : List Char) : List Char := s.dropWhile jsonWS

def isJDigit (c : Char) : Bool := '0' ≤ c ∧ c ≤ '9'

def digitsToNat (ds : List Char) : Nat :=
  ds.foldl (fun acc c => acc * 10 + (c.toNat - '0'.toNat)) 0

/-- Parse a JSON string body after the opening quote; handles the escape
sequences of strict JSON and rejects unescaped control characters, as
`json.loads` does.  (`\uXXXX` surrogate-pair recombination is not modelled;
no theorem exercises it.) -/
def parseJStringF : Nat → List Char → Option (List Char × List Char)
  | 0, _ => none
  | _, [] => none
  | fuel + 1, c :: rest =>
    if c = '"' then some ([], rest)
    else if c = '\\' then
      match rest with
      | [] => none
      | e :: rest' =>
        let cont (ch : Char) (r : List Char) : Option (List Char × List Char) :=
          match parseJStringF fuel r with
          | some (s, r') => some (ch :: s, r')
          | none => none
        if e = '"' then cont '"' rest'
        else if e = '\\' then cont '\\' rest'
        else if e = '/' then cont '/' rest'
        else if e = 'b' then cont '\x08' rest'
        else if e = 'f' then cont '\x0c' rest'
        else if e = 'n' then cont '\n' rest'
        else if e = 'r' then cont '\r' rest'
        else if e = 't' then cont '\t' rest'
        else if e = 'u' then
          match rest' with
          | h1 :: h2 :: h3 :: h4 :: rest'' =>
            let hex? (h : Char) : Option Nat :=
              if isJDigit h then some (h.toNat - '0'.toNat)
              else if 'a' ≤ h ∧ h ≤ 'f' then some (h.toNat - 'a'.toNat + 10)
              else if 'A' ≤ h ∧ h ≤ 'F' then some (h.toNat - 'A'.toNat + 10)
              else none
            match hex? h1, hex? h2, hex? h3, hex? h4 with
            | some a, some b, some c', some d =>
              cont (Char.ofNat (((a * 16 + b) * 16 + c') * 16 + d)) rest''
            | _, _, _, _ => none
          | _ => none
        else none
    else if c.toNat < 0x20 then none
    else
      match parseJStringF fuel rest with
      | some (s, r') => some (c :: s, r')
      | none => none

def parseJString (s : List Char) : Option (List Char × List Char) :=
  parseJStringF (s.length + 1) s

/-- Parse a strict JSON number: `-?(0|[1-9][0-9]*)(\.[0-9]+)?([eE][+-]?[0-9]+)?`.
A bare integer literal yields `JVal.int`; a fraction or exponent yields
`JVal.float`, exactly as `json.loads` distinguishes `int` from `float`. -/
def parseJNumber (s : List Char) : Option (JVal × List Char) :=
  let (neg, s1) := match s with
    | '-' :: r => (true, r)
    | _ => (false, s)
  let intDigits := s1.takeWhile isJDigit
  let s2 := s1.dropWhile isJDigit
  if intDigits = [] then none
  else if intDigits.length > 1 ∧ intDigits.headD '0' = '0' then none
  else
    let (fracDigits, s3) := match s2 with
      | '.' :: r =>
        let fd := r.takeWhile isJDigit
        (fd, r.dropWhile isJDigit)
      | _ => ([], s2)
    if s2 ≠ [] ∧ s2.headD ' ' = '.' ∧ fracDigits = [] then none
    else
      let expPart : Option (Bool × List Char × List Char) := match s3 with
        | 'e' :: r | 'E' :: r =>
          let (eneg, r1) := match r with
            | '+' :: r' => (false, r')
            | '-' :: r' => (true, r')
            | _ => (false, r)
          some (eneg, r1.takeWhile isJDigit, r1.dropWhile isJDigit)
        | _ => none
      let mantissa : Int := Int.ofNat (digitsToNat (intDigits ++ fracDigits))
      let mantissa := if neg then -mantissa else mantissa
      match expPart with
      | some (_, [], _) => none
      | some (eneg, eds, s4) =>
        let e10 : Int :=
          (if eneg then -(Int.ofNat (digitsToNat eds)) else Int.ofNat (digitsToNat eds))
            - Int.ofNat fracDigits.length
        some (.float mantissa e10, s4)
      | none =>
        if fracDigits = [] then some (.int mantissa, s3)
        else some (.float mantissa (-(Int.ofNat fracDigits.length)), s3)

/-- Parse the scalar JSON value at the head of `s` (no leading whitespace). -/
def parseJScalar (s : List Char) : Option (JVal × List Char) :=
  match s with
  | [] => none
  | c :: rest =>
    if c = 'n' then
      if "ull".data.isPrefixOf rest then some (.null, rest.drop 3) else none
    else if c = 't' then
      if "rue".data.isPrefixOf rest then some (.bool true, rest.drop 3) else none
    else if c = 'f' then
      if "alse".data.isPrefixOf rest then some (.bool false, rest.drop 4) else none
    else if c = '"' then
      match parseJString rest with
      | some (str, r) => some (.str str, r)
      | none => none
    else if c = '-' ∨ isJDigit c then
      match parseJNumber s with
      | some (v, r) => some (v, r)
      | none => none
    else none

/-- Continuation frames of the iterative JSON parser. -/
inductive JFrame where
  | arrF (acc : List JVal)
  | objF (acc : List (List Char × JVal)) (key : List Char)

inductive JTask where
  | value
  | closed (v : JVal)

/-- Iterative recursive-descent core of `json.loads`: one step either consumes
input or terminates, so `length + 1` fuel is enough. -/
def jsonRun : Nat → JTask → List JFrame → List Char → Option (JVal × List Char)
  | 0, _, _, _ => none
  | fuel + 1, .value, stk, s =>
    let s := skipWS s
    match s with
    | '[' :: r =>
      let r' := skipWS r
      (match r' with
       | ']' :: r2 => jsonRun fuel (.closed (.arr [])) stk r2
       | _ => jsonRun fuel .value (.arrF [] :: stk) r')
    | '{' :: r =>
      let r' := skipWS r
      (match r' with
       | '}' :: r2 => jsonRun fuel (.closed (.obj [])) stk r2
       | '"' :: r2 =>
         (match parseJString r2 with
          | some (k, r3) =>
            (match skipWS r3 with
             | ':' :: r5 => jsonRun fuel .value (.objF [] k :: stk) r5
             | _ => none)
          | none => none)
       | _ => none)
    | _ =>
      match parseJScalar s with
      | some (v, r) => jsonRun fuel (.closed v) stk r
      | none => none
  | fuel + 1, .closed v, stk, s =>
    match stk with
    | [] => some (v, s)
    | .arrF acc :: stk' =>
      (match skipWS s with
       | ',' :: r => jsonRun fuel .value (.arrF (acc ++ [v]) :: stk') r
       | ']' :: r => jsonRun fuel (.closed (.arr (acc ++ [v]))) stk' r
       | _ => none)
    | .objF acc k :: stk' =>
      (match skipWS s with
       | ',' :: r =>
         (match skipWS r with
          | '"' :: r2 =>
            (match parseJString r2 with
             | some (k2, r3) =>
               (match skipWS r3 with
                | ':' :: r5 => jsonRun fuel .value (.objF (assocInsert acc k v) k2 :: stk') r5
                | _ => none)
             | none => none)
          | _ => none)
       | '}' :: r => jsonRun fuel (.closed (.obj (assocInsert acc k v))) stk' r
       | _ => none)

/-- `json.loads`: parse one value, then require only trailing whitespace
("Extra data" otherwise). -/
def jsonParse (s : List Char) : Option JVal :=
  match jsonRun (s.length + 1) .value [] s with
  | some (v, rest) => if skipWS rest = [] then some v else none
  | none => none

/-- Python truthiness of a JSON-decoded value. -/
def pyTruthyJ : JVal → Bool
  | .null => false
  | .bool b => b
  | .int n => n ≠ 0
  | .float m _ => m ≠ 0
  | .str s => s ≠ []
  | .arr xs => !xs.isEmpty
  | .obj kvs => !kvs.isEmpty

/-! ### `src/core/normalization.py` -/

/-- `THINK_PATTERN = re.compile(r"<think>(.*?)</think>", re.DOTALL)` etc. -/
def thinkOpen : List Char := "<think>".data
def thinkClose : List Char := "</think>".data
def answerOpen : List Char := "<answer>".data
def answerClose : List Char := "</answer>".data
def fenceOpen : List Char := "```json".data
def fenceClose : List Char := "```".data

/-- `extract_reasoning_and_answer` (normalization.py lines 10-22). -/
def extract_reasoning_and_answer (text : List Char) : List Char × List Char :=
  let reasoning :=
    match searchTag thinkOpen thinkClose text with
    | some (_, inner, _) => pyStrip inner
    | none => []
  let cleaned := pyStrip (removeTagged thinkOpen thinkClose text)
  let answer :=
    match searchTag answerOpen answerClose cleaned with
    | some (_, inner, _) => pyStrip inner
    | none => pyStrip cleaned
  (reasoning, answer)

/-- `extract_tool_json` (normalization.py lines 25-35): the first fenced
```json block whose (stripped) contents parse, else the whole text, else
`None`. -/
def extract_tool_json (text : List Char) : Option JVal :=
  match (fencedBlocks fenceOpen fenceClose text).findSome?
      (fun block => jsonParse (pyStrip block)) with
  | some v => some v
  | none => jsonParse text

/-- The normalized triple built by `normalize_output` (normalization.py lines
38-46).  Note the returned dict has exactly the keys `reasoning`, `final`,
`tool` — there is no `raw` key. -/
structure NormOut where
  reasoning : List Char
  final : List Char
  tool : Option JVal

/-- `normalize_output` (normalization.py lines 38-46). -/
def normalize_output (raw : List Char) : NormOut :=
  let ra := extract_reasoning_and_answer raw
  let tool_call := extract_tool_json ra.2
  { reasoning := ra.1
    final := match tool_call with | none => ra.2 | some _ => []
    tool := tool_call }

/-! ### Python runtime model: exceptions, the normalized-response dict -/

/-- Python exceptions raised (or raisable) in the modelled code paths. -/
inductive PyErr where
  | keyError (k : List Char)
  | attributeError (m : List Char)
  | valueError (m : List Char)
  | typeError (m : List Char)
  | runtimeError (m : List Char)
  | timeoutError (m : List Char)
  | httpError (code : Nat)
deriving DecidableEq

/-- Python `str(e)` for the exceptions above (`str(KeyError('raw'))` is
`"'raw'"`). -/
def PyErr.pystr : PyErr → List Char
  | .keyError k => '\'' :: (k ++ ['\''])
  | .attributeError m => m
  | .valueError m => m
  | .typeError m => m
  | .runtimeError m => m
  | .timeoutError m => m
  | .httpError code => "HTTP error ".data ++ intToChars code

/-- Values stored in the dict returned by `llm.chat` (= `normalize_output`):
strings for `reasoning`/`final`, an optional JSON value for `tool`. -/
inductive PyVal where
  | str (s : List Char)
  | jopt (v : Option JVal)

/-- Python truthiness of such a value. -/
def pyTruthy : PyVal → Bool
  | .str s => !s.isEmpty
  | .jopt none => false
  | .jopt (some v) => pyTruthyJ v

/-- The string content of such a value (only ever applied to `str` values in
the modelled paths). -/
def pyValStr : PyVal → List Char
  | .str s => s
  | .jopt _ => []

/-- The dict literal returned by `normalize_output` (normalization.py lines
42-46): keys `reasoning`, `final`, `tool` and nothing else. -/
def normDict (raw : List Char) : List (List Char × PyVal) :=
  let r := normalize_output raw
  [("reasoning".data, .str r.reasoning),
   ("final".data, .str r.final),
   ("tool".data, .jopt r.tool)]

/-- Python dict subscript `d[k]`: `KeyError` when the key is absent. -/
def dictGet (d : List (List Char × PyVal)) (k : List Char) : Except PyErr PyVal :=
  match d.find? (fun kv => kv.1 == k) with
  | some kv => .ok kv.2
  | none => .error (.keyError k)

/-- Python `a or b` over fallible operand expressions: evaluate `a`; if
truthy, its value; otherwise evaluate `b`. -/
def pyOrE (a : Except PyErr PyVal) (b : Unit → Except PyErr PyVal) : Except PyErr PyVal :=
  match a with
  | .error e => .error e
  | .ok av => if pyTruthy av then .ok av else b ()

/-- Python `a or b` over `dict.get` results (values or `None`). -/
def pyJOr (a b : Option JVal) : Option JVal :=
  match a with
  | some v => if pyTruthyJ v then some v else b
  | none => b

/-! ### `src/core/orchestrator.py`: conversation store and response loop -/

/-- One role-tagged message dict `{"role": r, "content": c}`. -/
structure Turn where
  role : List Char
  content : List Char
deriving DecidableEq

/-- `Orchestrator._append_history` (orchestrator.py lines 188-194): no-op on
empty content; append; `del history[:-20]` keeps the last 20 turns. -/
def appendHistory (history : List Turn) (role content : List Char) : List Turn :=
  if content = [] then history
  else
    let history' := history ++ [{ role := role, content := content }]
    if 20 < history'.length then history'.drop (history'.length - 20) else history'

/-- `self.conversations`: channel → message list (`setdefault` gives `[]`). -/
def Convs : Type := List Char → List Turn

def updateConvs (convs : Convs) (channel : List Char) (h : List Turn) : Convs :=
  fun c => if c = channel then h else convs c

/-- External behaviour consumed by one `_generate_response` run: the raw
completion text of the k-th LLM request (`chat` and `interpret_tool` both end
in one completion request) and the text result of the k-th
`MCPManager.execute` call.  `execute` always returns text (see
`MCPManager.execute` below), so it is total here. -/
structure Oracle where
  llmRaw : Nat → List Char
  execResult : Nat → List Char

/-- Mutable state visible to the loop: counters for the two oracles and the
channel's history list. -/
structure GenState where
  llmCalls : Nat
  execCalls : Nat
  history : List Turn
deriving DecidableEq

inductive IterOut where
  | raise (e : PyErr) (st : GenState)
  | ret (ans : List Char) (st : GenState)
  | next (st : GenState)

/-- One iteration of the `for _ in range(max_tool_calls)` body
(orchestrator.py lines 143-163).  `response["final"] or response["raw"]`
raises `KeyError('raw')` whenever `final` is falsy, because the dict built by
`normalize_output` has no `raw` key. -/
def genIter (g : Oracle) (st : GenState) : IterOut :=
  let d := normDict (g.llmRaw st.llmCalls)
  let st := { st with llmCalls := st.llmCalls + 1 }
  match pyOrE (dictGet d ("final".data)) (fun _ => dictGet d ("raw".data)) with
  | .error e => .raise e st
  | .ok message_text =>
    let st :=
      if pyTruthy message_text then
        { st with history := appendHistory st.history ("assistant".data) (pyValStr message_text) }
      else st
    match dictGet d ("tool".data) with
    | .error e => .raise e st
    | .ok toolv =>
      if pyTruthy toolv then
        match toolv with
        | .jopt (some t) =>
          match t with
          | .obj kvs =>
            let _tool_name := pyJOr (objGet kvs ("tool".data)) (objGet kvs ("name".data))
            let _args :=
              let a := objGetD kvs ("arguments".data) (.obj [])
              if pyTruthyJ a then a else JVal.obj []
            let _result := g.execResult st.execCalls
            let st := { st with execCalls := st.execCalls + 1 }
            let d2 := normDict (g.llmRaw st.llmCalls)
            let st := { st with llmCalls := st.llmCalls + 1 }
            match pyOrE (dictGet d2 ("final".data)) (fun _ => dictGet d2 ("raw".data)) with
            | .error e => .raise e st
            | .ok interpreted_text =>
              let st :=
                if pyTruthy interpreted_text then
                  { st with history := appendHistory st.history ("assistant".data) (pyValStr interpreted_text) }
                else st
              .next st
          | _ => .raise (.attributeError ("'object' has no attribute 'get'".data)) st
        | _ => .raise (.attributeError ("'object' has no attribute 'get'".data)) st
      else
        match dictGet d ("final".data) with
        | .error e => .raise e st
        | .ok finalv =>
          if pyTruthy finalv then .ret (pyValStr finalv) st else .next st

/-- Outcome of `_generate_response`: either a Python exception escapes, or a
string is returned; in both cases the in-place history mutations persist. -/
inductive GenResult where
  | raised (e : PyErr) (st : GenState)
  | returned (ans : List Char) (st : GenState)
deriving DecidableEq

/-- The `for` loop of `_generate_response`; on exhaustion the function
returns `""` (orchestrator.py line 165). -/
def genLoopAux (g : Oracle) : Nat → GenState → GenResult
  | 0, st => .returned [] st
  | n + 1, st =>
    match genIter g st with
    | .raise e st' => .raised e st'
    | .ret a st' => .returned a st'
    | .next st' => genLoopAux g n st'

/-- `Orchestrator._generate_response` (orchestrator.py lines 140-165) with
`max_tool_calls = 10`, acting on the given channel history. -/
def generateResponse (g : Oracle) (history : List Turn) : GenResult :=
  genLoopAux g 10 { llmCalls := 0, execCalls := 0, history := history }

/-! ### `src/services/sora_client.py` -/

/-- One polled HTTP response: either `raise_for_status` raises, or the body
decodes to a JSON value. -/
def SoraResponses : Type := Nat → Except PyErr JVal

/-- Python `data[k]` on a decoded JSON value (`KeyError` when absent,
`TypeError` when the value is not a dict). -/
def jSubscript (v : JVal) (k : List Char) : Except PyErr JVal :=
  match v with
  | .obj kvs =>
    match objGet kvs k with
    | some x => .ok x
    | none => .error (.keyError k)
  | _ => .error (.typeError ("value is not subscriptable by string".data))

/-- The `for _ in range(timeout)` body of `SoraClient.poll`
(sora_client.py lines 21-33), polling attempt `attempt` with `fuel`
iterations left. -/
def soraPollF (resp : SoraResponses) : Nat → Nat → Except PyErr JVal
  | _, 0 => .error (.timeoutError ("Sora job timed out".data))
  | attempt, fuel + 1 =>
    match resp attempt with
    | .error e => .error e
    | .ok data =>
      match jSubscript data ("status".data) with
      | .error e => .error e
      | .ok statusv =>
        if (match statusv with | .str s => s == "completed".data | _ => false) then
          jSubscript data ("video_url".data)
        else
          soraPollF resp (attempt + 1) fuel

/-- `SoraClient.poll(job_id, timeout=120)`: returns `data["video_url"]` of the
first response whose `status` equals `"completed"`, else `TimeoutError` after
`timeout` attempts. -/
def soraPoll (resp : SoraResponses) (timeout : Nat) : Except PyErr JVal :=
  soraPollF resp 0 timeout

/-- `SoraClient.submit_job` (sora_client.py lines 11-19): the POST either
raises or yields a JSON body, from which `job_id` is subscripted. -/
def soraSubmit (postResp : Except PyErr JVal) : Except PyErr JVal :=
  match postResp with
  | .error e => .error e
  | .ok data => jSubscript data ("job_id".data)

/-! ### `src/core/orchestrator.py`: Slack event handling -/

/-- A normalized inbound Slack message event (`event` dict fields used by
`handle_slack_message`; `channel` is accessed with `event["channel"]`, the
rest with `.get`). -/
structure SlackEvent where
  channel : List Char
  ts : Option (List Char)
  thread_ts : Option (List Char)
  text : Option (List Char)
  channel_type : Option (List Char)
  user : Option (List Char)

/-- One outbound `send_message` call. -/
structure SentMsg where
  channel : List Char
  text : List Char
  thread_ts : Option (List Char)
deriving DecidableEq

/-- Collaborator behaviour and configuration of the new-style orchestrator. -/
structure OrchCtx where
  botUserId : Option (List Char)
  soraApiKey : List Char
  soraBaseUrl : List Char
  soraSubmitResp : Except PyErr JVal
  soraPollResp : SoraResponses
  oracle : Oracle

/-- Outcome of `handle_slack_message`: the messages sent, the conversation
state after the in-place mutations, and the exception that escaped the
handler, if any (the function has no try/except of its own). -/
structure HandleOut where
  sent : List SentMsg
  convs : Convs
  raised : Option PyErr

/-- `Orchestrator._was_bot_mentioned` (orchestrator.py lines 202-206). -/
def wasBotMentioned (botUserId : Option (List Char)) (text : List Char) : Bool :=
  match botUserId with
  | none => false
  | some bid => occursIn ("<@".data ++ bid ++ ">".data) text

/-- `Orchestrator._strip_bot_mention` (orchestrator.py lines 196-200). -/
def stripBotMention (botUserId : Option (List Char)) (text : List Char) : List Char :=
  match botUserId with
  | none => text
  | some bid => pyStrip (removeAll ("<@".data ++ bid ++ ">".data) text)

/-- `Orchestrator._sora_available` (orchestrator.py lines 208-209). -/
def soraAvailable (ctx : OrchCtx) : Bool :=
  !ctx.soraApiKey.isEmpty && !ctx.soraBaseUrl.isEmpty

/-- Python `str(v)` of a JSON-decoded scalar (used for the `job_id` and
`video_url` interpolations; only the cases exercised in practice are
rendered exactly). -/
def pyStrOfJ : JVal → List Char
  | .str s => s
  | .int n => intToChars n
  | .bool true => "True".data
  | .bool false => "False".data
  | .null => "None".data
  | .float m e => intToChars m ++ "e".data ++ intToChars e
  | .arr _ => "<list>".data
  | .obj _ => "<dict>".data

/-- `Orchestrator._handle_video_request` (orchestrator.py lines 211-241).
Every path sends a message; the internal try/except turns submit/poll
exceptions into a "Video request failed" message. -/
def handleVideoRequest (ctx : OrchCtx) (text channel : List Char)
    (thread_ts : Option (List Char)) : List SentMsg :=
  if !(soraAvailable ctx) then
    [{ channel := channel,
       text := "Video generation is not configured for this workspace.".data,
       thread_ts := thread_ts }]
  else
    let description :=
      let d := pyStrip (text.drop ("make a video of".data).length)
      if d = [] then "a short clip".data else d
    let starting : SentMsg :=
      { channel := channel,
        text := "Starting video generation for: ".data ++ description,
        thread_ts := thread_ts }
    match soraSubmit ctx.soraSubmitResp with
    | .error e =>
      [starting,
       { channel := channel, text := "Video request failed: ".data ++ e.pystr,
         thread_ts := thread_ts }]
    | .ok jobId =>
      let _ := jobId
      match soraPoll ctx.soraPollResp 120 with
      | .ok url =>
        [starting,
         { channel := channel, text := "Video ready: ".data ++ pyStrOfJ url,
           thread_ts := thread_ts }]
      | .error e =>
        [starting,
         { channel := channel, text := "Video request failed: ".data ++ e.pystr,
           thread_ts := thread_ts }]

/-- `Orchestrator.handle_slack_message` (orchestrator.py lines 61-84).  There
is no try/except here: an exception raised by `_generate_response` escapes
(recorded in `raised`) and nothing is sent. -/
def handleSlackMessage (ctx : OrchCtx) (convs : Convs) (event : SlackEvent) : HandleOut :=
  let channel := event.channel
  let thread_ts := match event.thread_ts with
    | some v => some v
    | none => event.ts
  let text := pyStrip (event.text.getD [])
  let channel_type := event.channel_type.getD []
  let proceed : Option (List Char) :=
    if channel_type ≠ "im".data then
      if !(wasBotMentioned ctx.botUserId text) then none
      else
        let stripped := stripBotMention ctx.botUserId text
        if stripped = [] then none else some stripped
    else some text
  match proceed with
  | none => { sent := [], convs := convs, raised := none }
  | some text =>
    if ("make a video of".data).isPrefixOf (pyLower text) then
      { sent := handleVideoRequest ctx text channel thread_ts, convs := convs, raised := none }
    else
      let convs := updateConvs convs channel (appendHistory (convs channel) ("user".data) text)
      match generateResponse ctx.oracle (convs channel) with
      | .raised e st =>
        { sent := [], convs := updateConvs convs channel st.history, raised := some e }
      | .returned r st =>
        let convs := updateConvs convs channel st.history
        let reply := if r = [] then "I'm sorry, I couldn't produce a response.".data else r
        { sent := [{ channel := channel, text := reply, thread_ts := thread_ts }],
          convs := convs, raised := none }

/-! ### `src/services/mcp_manager.py` -/

/-- `ToolInfo` dataclass (mcp_manager.py lines 40-45).  The JSON schema is
kept as a decoded value. -/
structure ToolInfo where
  name : List Char
  description : List Char
  input_schema : JVal
  server_name : List Char

/-- Behaviour of one running MCP server process on `execute_tool`: either the
call raises (any exception, summarized by its message) or it returns a result
already flattened to text by `_stringify_result` (the result object itself is
an opaque wire value of the `mcp` library). -/
def ServerBeh : Type := List Char → JVal → Except (List Char) (List Char)

/-- `traceback.format_exc()` for an exception whose detail text is `e`
(mcp_manager.py line 212 returns it instead of re-raising). -/
def formatExc (e : List Char) : List Char :=
  "Traceback (most recent call last):\n".data ++ e

/-- `MCPManager` mutable state: the started flag and the `servers`/`tools`
dicts. -/
structure MCPState where
  started : Bool
  servers : List (List Char × ServerBeh)
  tools : List (List Char × ToolInfo)

/-- `MCPManager.execute` (mcp_manager.py lines 195-212).  Total: every branch
returns text; a backend exception is caught and rendered with
`traceback.format_exc()`. -/
def mcpExecute (st : MCPState) (name : List Char) (args : JVal) : List Char :=
  if !st.started then "MCP manager is not initialized".data
  else
    match (st.tools.find? (fun kv => kv.1 == name)).map (fun kv => kv.2) with
    | none => "Unknown tool '".data ++ name ++ "'".data
    | some tool =>
      match (st.servers.find? (fun kv => kv.1 == tool.server_name)).map (fun kv => kv.2) with
      | none => "Server for tool '".data ++ name ++ "' is unavailable".data
      | some server =>
        match server name args with
        | .ok text => text
        | .error e => formatExc e

/-- `MCPServerConfig` dataclass (mcp_manager.py lines 21-26). -/
structure MCPServerConfig where
  command : List Char
  args : List (List Char)
  description : List Char
  env : List (List Char × List Char)

/-- `MCPServerConfig.from_dict` (mcp_manager.py lines 28-37), for a payload
already known to be a dict.  Iterating a JSON value with `for arg in ...`
follows Python: lists yield elements, strings yield characters, dicts yield
keys, scalars raise `TypeError`; `.items()` on a non-dict raises
`AttributeError`.  All these exceptions are caught (and the entry skipped) by
the caller. -/
def configFromPayload (payload : List (List Char × JVal)) : Except PyErr MCPServerConfig :=
  match objGet payload ("command".data) with
  | none => .error (.valueError ("MCP server definition requires a 'command'".data))
  | some cmd =>
    let argsv := objGetD payload ("args".data) (.arr [])
    let argsE : Except PyErr (List (List Char)) :=
      match argsv with
      | .arr xs => .ok (xs.map pyStrOfJ)
      | .str s => .ok (s.map (fun c => [c]))
      | .obj kvs => .ok (kvs.map (fun kv => kv.1))
      | _ => .error (.typeError ("'args' object is not iterable".data))
    match argsE with
    | .error e => .error e
    | .ok args =>
      let descv :=
        let d := objGetD payload ("description".data) (.str [])
        if pyTruthyJ d then d else .str []
      let envv :=
        let e := objGetD payload ("env".data) .null
        if pyTruthyJ e then e else .obj []
      match envv with
      | .obj kvs =>
        .ok { command := pyStrOfJ cmd, args := args, description := pyStrOfJ descv,
              env := kvs.map (fun kv => (kv.1, pyStrOfJ kv.2)) }
      | _ => .error (.attributeError ("'env' object has no attribute 'items'".data))

/-- `MCPManager._expand_env` (mcp_manager.py lines 254-264): substitute every
well-formed occurrence of a placeholder (dollar-brace, one or more non-brace
characters, closing brace); an unset variable raises `RuntimeError`.  A
dollar-brace immediately followed by a closing brace is not a match and is
left in place. -/
def expandEnvF (env : List Char → Option (List Char)) : Nat → List Char → Except PyErr (List Char)
  | 0, s => .ok s
  | fuel + 1, s =>
    match findSplit ("$".data ++ "\x7b".data) s with
    | none => .ok s
    | some (pre, rest) =>
      match findSplit ("\x7d".data) rest with
      | none => .ok s
      | some (varName, post) =>
        if varName = [] then
          match expandEnvF env fuel rest with
          | .ok t => .ok (pre ++ "$".data ++ "\x7b".data ++ t)
          | .error e => .error e
        else
          match env varName with
          | none =>
            .error (.runtimeError ("Environment variable '".data ++ varName ++
              "' is required for MCP config but is not set".data))
          | some v =>
            match expandEnvF env fuel post with
            | .ok t => .ok (pre ++ v ++ t)
            | .error e => .error e

def expandEnv (env : List Char → Option (List Char)) (s : List Char) : Except PyErr (List Char) :=
  expandEnvF env s.length s

/-- The configuration source: the file is either absent or has some text
content. -/
inductive CfgSource where
  | missing
  | content (text : List Char)

/-- `MCPManager._load_server_configs` (mcp_manager.py lines 223-252): missing
file → empty dict; env expansion may raise; invalid JSON or a non-object
document raises `ValueError`; non-dict entries and entries whose
`from_dict` raises are skipped.  (The Python error messages interpolate the
config path and the decoder error; the model keeps a fixed prefix.) -/
def loadServerConfigs (src : CfgSource) (env : List Char → Option (List Char)) :
    Except PyErr (List (List Char × MCPServerConfig)) :=
  match src with
  | .missing => .ok []
  | .content raw =>
    match expandEnv env raw with
    | .error e => .error e
    | .ok expanded =>
      match jsonParse expanded with
      | none => .error (.valueError ("Invalid JSON in MCP config".data))
      | some (.obj entries) =>
        .ok (entries.foldl (fun acc kv =>
          match kv.2 with
          | .obj payload =>
            (match configFromPayload payload with
             | .ok cfg => acc ++ [(kv.1, cfg)]
             | .error _ => acc)
          | _ => acc) [])
      | some _ =>
        .error (.valueError ("MCP config must be a JSON object mapping names to definitions".data))

/-- Combined outcome of `server.start(); server.list_tools()` for one
configured backend: the discovered tools, or the exception either call
raised. -/
def StartOutcome : Type := List Char → MCPServerConfig → Except PyErr (List ToolInfo)

/-- `MCPManager.start` (mcp_manager.py lines 138-176): no-op when already
started; empty config set is a valid (empty) startup; per-backend failures
are skipped; `RuntimeError` when backends were configured but none started.
`execBeh` supplies the execute-behaviour of each successfully started server
process. -/
def mcpStartStep (outcome : StartOutcome) (execBeh : List Char → ServerBeh)
    (acc : MCPState × Nat) (nc : List Char × MCPServerConfig) : MCPState × Nat :=
  match outcome nc.1 nc.2 with
  | .error _ => acc
  | .ok tools =>
    ({ acc.1 with
        servers := assocInsert acc.1.servers nc.1 (execBeh nc.1),
        tools := tools.foldl (fun ts t => assocInsert ts t.name t) acc.1.tools },
     acc.2 + 1)

def mcpStart (src : CfgSource) (env : List Char → Option (List Char))
    (outcome : StartOutcome) (execBeh : List Char → ServerBeh)
    (st : MCPState) : Except PyErr MCPState :=
  if st.started then .ok st
  else
    match loadServerConfigs src env with
    | .error e => .error e
    | .ok configs =>
      if configs.isEmpty then .ok { st with started := true }
      else
        let res := configs.foldl (mcpStartStep outcome execBeh) (st, 0)
        if res.2 = 0 then .error (.runtimeError ("No MCP servers could be started".data))
        else .ok { res.1 with started := true }

/-! ### Legacy implementation: `mcp_simple_slackbot/slack_manager.py`

The legacy bot keeps its own conversation store and tool-call loop.  Its
`LLMClient.get_response` never raises (every failure path returns an error
string), so it is a total oracle; `mcp_manager.format_tools_for_llm` and
`mcp_manager.execute_tool` belong to a module not present under `src/` and
are therefore unconstrained collaborator oracles (`execute_tool` raising
`ValueError` marks an unknown tool, which `_process_tool_call` handles
specially). -/

/-- Outbound effects of the legacy bot: a `say(...)` call or a
`files_upload_v2(...)` call. -/
inductive OldReply where
  | say (text : List Char)
  | fileUpload (title : List Char)
deriving DecidableEq

/-- Collaborators of the legacy `SlackBot`. -/
structure OldCtx where
  botId : Option (List Char)
  hasVideoConfig : Bool
  fmtTools : Except PyErr (List Char)
  llmResp : Nat → List Char
  execTool : Nat → Except PyErr (List Char)
  genVideo : Except PyErr (Option (List Char))
  uploadRes : Except PyErr Unit

/-- Legacy conversation store: channel → `conversations[channel]["messages"]`. -/
def OldConvs : Type := List Char → List Turn

/-- `SlackBot.add_response_to_conversation` (legacy lines 121-129): plain
append of an assistant turn, no cap and no empty-content guard. -/
def oldAddResponse (convs : OldConvs) (channel response : List Char) : OldConvs :=
  fun c => if c = channel then convs channel ++ [{ role := "assistant".data, content := response }]
           else convs c

def oldAddUser (convs : OldConvs) (channel text : List Char) : OldConvs :=
  fun c => if c = channel then convs channel ++ [{ role := "user".data, content := text }]
           else convs c

/-- `SlackBot._process_tool_call` (legacy lines 244-304).  Total: every
exception inside is caught and converted to a text reply.  Returns the reply
text together with the advanced LLM/tool oracle counters. -/
def oldProcessToolCall (ctx : OldCtx) (llmIdx execIdx : Nat) (response : List Char) :
    List Char × Nat × Nat :=
  let segments := splitSub ("[TOOL]".data) response
  let beforeTag := segments.headD []
  match segments with
  | _ :: afterTag :: _ =>
    let tool_parts := splitOnceChar '\n' (pyStrip afterTag)
    let tool_name := pyStrip (tool_parts.headD [])
    match tool_parts with
    | [_] =>
      ("I tried to use the tool '".data ++ tool_name ++
        "', but the request was incomplete. Here's my response without the tool:\n\n".data ++
        beforeTag, llmIdx, execIdx)
    | _ :: argsPart :: _ =>
      let args_text := pyStrip argsPart
      match jsonParse args_text with
      | none =>
        ("I tried to use the tool '".data ++ tool_name ++
          "', but the arguments were not properly formatted. Here's my response without the tool:\n\n".data ++
          beforeTag, llmIdx, execIdx)
      | some _arguments =>
        match ctx.execTool execIdx with
        | .ok _tool_result =>
          -- interpret_tool_result delegates to get_response (total)
          (ctx.llmResp llmIdx, llmIdx + 1, execIdx + 1)
        | .error (.valueError _) =>
          ("I tried to use the tool '".data ++ tool_name ++
            "', but it's not available. Here's my response without the tool:\n\n".data ++
            beforeTag, llmIdx, execIdx + 1)
        | .error _ =>
          -- tool_result is still None here, so the fallback renders str(None)
          ("I used the ".data ++ tool_name ++
            " tool and got these results:\n\n```\nNone\n```".data, llmIdx, execIdx + 1)
    | [] =>
      ("I tried to use a tool, but encountered an error: ".data ++
        "list index out of range".data ++
        "\n\nHere's my response without the tool:\n\n".data ++ beforeTag, llmIdx, execIdx)
  | _ =>
    ("I tried to use a tool, but encountered an error: ".data ++
      "list index out of range".data ++
      "\n\nHere's my response without the tool:\n\n".data ++ beforeTag, llmIdx, execIdx)

/-- The `while "[TOOL]" in response and tool_call_count < 10` loop of the
legacy `_process_message` (legacy lines 194-203), with the remaining
iteration budget as fuel. -/
def oldLoop (ctx : OldCtx) (channel : List Char) :
    Nat → List Char → Nat → Nat → OldConvs → List Char × OldConvs
  | 0, response, _, _, convs => (response, convs)
  | budget + 1, response, llmIdx, execIdx, convs =>
    if occursIn ("[TOOL]".data) response then
      let r1 := oldProcessToolCall ctx llmIdx execIdx response
      let convs := oldAddResponse convs channel r1.1
      let response' := ctx.llmResp r1.2.1
      let convs := oldAddResponse convs channel response'
      oldLoop ctx channel budget response' (r1.2.1 + 1) r1.2.2 convs
    else (response, convs)

/-- `SlackBot._handle_video_request` (legacy lines 213-242): every path ends
in exactly one `say` or one file upload. -/
def oldHandleVideo (ctx : OldCtx) (text : List Char) : List OldReply :=
  let video_description := pyStrip (text.drop ("make a video of".data).length)
  match ctx.genVideo with
  | .error e =>
    [.say ("Error processing video request: ".data ++ e.pystr)]
  | .ok none =>
    [.say ("Video generation failed - no video returned".data)]
  | .ok (some _video) =>
    match ctx.uploadRes with
    | .ok _ => [.fileUpload ("Generated video: ".data ++ video_description)]
    | .error e => [.say ("Error uploading video: ".data ++ e.pystr)]

/-- The inbound text after the legacy mention-stripping (legacy lines
141-143): `event.get("text", "")`, with the bot mention removed and the
result stripped when `self.bot_id` is truthy. -/
def oldMsgText (ctx : OldCtx) (event : SlackEvent) : List Char :=
  let text0 := event.text.getD []
  match ctx.botId with
  | some bid => if bid ≠ [] then pyStrip (removeAll ("<@".data ++ bid ++ ">".data) text0) else text0
  | none => text0

/-- `SlackBot._process_message` (legacy lines 131-211).  The entire
LLM/tool-loop body sits inside `try: ... except Exception as e:` which
converts any exception into one apologetic `say`.  In this model the only
raising operation inside the try block is `format_tools_for_llm` (the LLM
client is total and `_process_tool_call` catches everything), so the except
branch fires exactly on its failure. -/
def oldProcessMessage (ctx : OldCtx) (convs : OldConvs) (event : SlackEvent) :
    List OldReply × OldConvs :=
  let channel := event.channel
  let user_id := event.user
  if user_id = ctx.botId then ([], convs)
  else
    let text := oldMsgText ctx event
    if ("make a video of".data).isPrefixOf (pyLower text) && ctx.hasVideoConfig then
      (oldHandleVideo ctx text, convs)
    else
      match ctx.fmtTools with
      | .error e =>
        ([.say ("I'm sorry, I encountered an error: ".data ++ e.pystr)], convs)
      | .ok _tools_text =>
        let convs := oldAddUser convs channel text
        let response := ctx.llmResp 0
        let convs := oldAddResponse convs channel response
        let out := oldLoop ctx channel 10 response 1 0 convs
        ([.say out.1], out.2)

/-! ### Definitions used by the claim statements -/

/-- The payload shape `{"tool": name, "arguments": {...}}` of claim C4. -/
def isToolCallShape (v : JVal) : Bool :=
  match v with
  | .obj kvs =>
    (match objGet kvs ("tool".data) with | some (.str _) => true | _ => false) &&
    (match objGet kvs ("arguments".data) with | some (.obj _) => true | _ => false)
  | _ => false

/-- A sequence of `_append_history(channel, role, content)` calls applied to
the conversation store. -/
def applyAppends (ops : List (List Char × List Char × List Char)) (convs : Convs) : Convs :=
  ops.foldl (fun cs op => updateConvs cs op.1 (appendHistory (cs op.1) op.2.1 op.2.2)) convs

/-! ### Concrete fixtures for the witnesses and counterexamples -/

/-- Model replies: every completion is `<answer></answer>` (non-empty raw
text that normalizes to an empty final answer and no tool). -/
def oracleAnswerTags : Oracle :=
  { llmRaw := fun _ => "<answer></answer>".data, execResult := fun _ => [] }

/-- Model replies: every completion is the empty string. -/
def oracleEmptyRaw : Oracle :=
  { llmRaw := fun _ => [], execResult := fun _ => [] }

/-- Model replies: every completion is the plain text `4`. -/
def oracleFour : Oracle :=
  { llmRaw := fun _ => "4".data, execResult := fun _ => [] }

/-- The fenced tool call used by claims C8. -/
def fencedEchoCall : List Char :=
  "```json\n\x7b\"tool\": \"echo\", \"arguments\": \x7b\x7d\x7d\n```".data

/-- Model replies: every completion is a fenced `{"tool": ..., "arguments": ...}` call. -/
def oracleFencedTool : Oracle :=
  { llmRaw := fun _ => fencedEchoCall, execResult := fun _ => [] }

/-- New-style orchestrator context whose model always replies with the empty
string (Sora unconfigured; the Sora oracles are never consulted). -/
def ctxEmptyModel : OrchCtx :=
  { botUserId := none, soraApiKey := [], soraBaseUrl := [],
    soraSubmitResp := .error (.httpError 500),
    soraPollResp := fun _ => .error (.httpError 500),
    oracle := oracleEmptyRaw }

/-- A normal direct message event. -/
def eventDM : SlackEvent :=
  { channel := "C1".data, ts := some ("1700000000.000100".data), thread_ts := none,
    text := some ("hello".data), channel_type := some ("im".data),
    user := some ("U1".data) }

/-- Legacy context whose tool-catalog rendering raises inside the per-event
try block. -/
def oldCtxFmtFails : OldCtx :=
  { botId := some ("B9".data), hasVideoConfig := false,
    fmtTools := .error (.runtimeError ("MCP manager unavailable".data)),
    llmResp := fun _ => "hi".data, execTool := fun _ => .ok [],
    genVideo := .ok none, uploadRes := .ok () }

/-- An MCP registry that has started with no servers and no tools. -/
def mcpStartedEmpty : MCPState := { started := true, servers := [], tools := [] }

/-- Sora responses: first poll `failed`, second poll `completed` with a URL,
then `pending` forever. -/
def soraRespFailedThenDone : SoraResponses := fun i =>
  if i = 1 then
    .ok (.obj [("status".data, .str ("completed".data)),
               ("video_url".data, .str ("https://x/y.mp4".data))])
  else if i = 0 then
    .ok (.obj [("status".data, .str ("failed".data)),
               ("video_url".data, .str [])])
  else
    .ok (.obj [("status".data, .str ("pending".data)),
               ("video_url".data, .str [])])

/-- Status field of `soraRespFailedThenDone`, as a plain function. -/
def soraStatusW : Nat → List Char := fun i =>
  if i = 1 then "completed".data else if i = 0 then "failed".data else "pending".data

/-- URL field of `soraRespFailedThenDone`, as a plain function. -/
def soraUrlW : Nat → List Char := fun i =>
  if i = 1 then "https://x/y.mp4".data else []

/-- Witness fixture for C4: prose, a fenced well-formed tool payload, more
prose. -/
def preC4 : List Char := "Sure, here is the call: ".data

def bodyC4 : List Char :=
  "\n\x7b\"tool\": \"fetch\", \"arguments\": \x7b\"url\": \"https://example.com\"\x7d\x7d\n".data

def postC4 : List Char := " That is all.".data

def toolC4 : JVal :=
  .obj [("tool".data, .str ("fetch".data)),
        ("arguments".data, .obj [("url".data, .str ("https://example.com".data))])]

def rawC4 : List Char := preC4 ++ (fenceOpen ++ bodyC4 ++ fenceClose) ++ postC4

/-! ### Helper lemmas: the history trim -/

theorem takeLast_rev (n : Nat) (l : List α) : (takeLast n l).reverse = l.reverse.take n := by
  unfold takeLast
  rw [List.reverse_drop]
  rcases Nat.le_total n l.length with h | h
  · congr 1
    omega
  · rw [Nat.sub_eq_zero_of_le h]
    rw [Nat.sub_zero]
    rw [List.take_of_length_le (by simp [h]), List.take_of_length_le (by simp [h])]

theorem takeLast_eq_rev_take (n : Nat) (l : List α) :
    takeLast n l = (l.reverse.take n).reverse := by
  rw [← takeLast_rev n l, List.reverse_reverse]

theorem take_absorb (n : Nat) (x y : List α) : (x ++ y.take n).take n = (x ++ y).take n := by
  rw [List.take_append_eq_append_take, List.take_append_eq_append_take, List.take_take]
  congr 1
  rw [Nat.min_eq_left (Nat.sub_le n x.length)]

theorem takeLast_absorb (n : Nat) (a b : List α) :
    takeLast n (takeLast n a ++ b) = takeLast n (a ++ b) := by
  rw [takeLast_eq_rev_take n (takeLast n a ++ b), takeLast_eq_rev_take n (a ++ b)]
  congr 1
  rw [List.reverse_append, takeLast_rev, List.reverse_append, take_absorb]

theorem length_takeLast_le (n : Nat) (l : List α) : (takeLast n l).length ≤ n := by
  unfold takeLast
  rw [List.length_drop]
  omega

theorem appendHistory_empty (h : List Turn) (r : List Char) : appendHistory h r [] = h := rfl

theorem appendHistory_eq_takeLast (h : List Turn) (r c : List Char) (hc : c ≠ []) :
    appendHistory h r c = takeLast 20 (h ++ [{ role := r, content := c }]) := by
  unfold appendHistory takeLast
  rw [if_neg hc]
  by_cases h20 : 20 < (h ++ [({ role := r, content := c } : Turn)]).length
  · rw [if_pos h20]
  · rw [if_neg h20]
    rw [Nat.sub_eq_zero_of_le (Nat.le_of_not_lt h20), List.drop_zero]

theorem applyAppends_channel (ops : List (List Char × List Char × List Char))
    (convs : Convs) (c : List Char) :
    applyAppends ops convs c =
      ops.foldl (fun h op => if op.1 = c then appendHistory h op.2.1 op.2.2 else h) (convs c) := by
  induction ops generalizing convs with
  | nil => rfl
  | cons op ops ih =>
    show applyAppends ops (updateConvs convs op.1 (appendHistory (convs op.1) op.2.1 op.2.2)) c = _
    rw [ih]
    by_cases hch : op.1 = c
    · subst hch
      simp [updateConvs]
    · have huc : updateConvs convs op.1 (appendHistory (convs op.1) op.2.1 op.2.2) c = convs c := by
        unfold updateConvs
        rw [if_neg (fun hc' => hch hc'.symm)]
      rw [huc, List.foldl_cons, if_neg hch]

theorem foldl_appendHistory_takeLast (c : List Char)
    (ops : List (List Char × List Char × List Char)) (h : List Turn) :
    ops.foldl (fun h op => if op.1 = c then appendHistory h op.2.1 op.2.2 else h) (takeLast 20 h) =
      takeLast 20 (h ++ (ops.filter (fun op => op.1 == c && !op.2.2.isEmpty)).map
        (fun op => ({ role := op.2.1, content := op.2.2 } : Turn))) := by
  induction ops generalizing h with
  | nil => simp
  | cons op ops ih =>
    rw [List.foldl_cons]
    by_cases hch : op.1 = c
    · by_cases hco : op.2.2 = []
      · rw [if_pos hch, hco, appendHistory_empty]
        rw [ih h]
        congr 2
        rw [List.filter_cons]
        simp [hco]
      · rw [if_pos hch, appendHistory_eq_takeLast _ _ _ hco, takeLast_absorb]
        rw [ih]
        rw [List.append_assoc]
        congr 2
        rw [List.filter_cons]
        simp [hch, hco]
    · rw [if_neg hch, ih h]
      congr 2
      rw [List.filter_cons]
      have : (op.1 == c) = false := by simpa using hch
      simp [this]

/-! ### Helper lemmas: stripping and delimiter search -/

theorem dropWhile_append_of_head (p : α → Bool) (a : List α) (c : α) (t : List α)
    (hc : p c = false) :
    (a ++ (c :: t)).dropWhile p = a.dropWhile p ++ (c :: t) := by
  induction a with
  | nil => simp [List.dropWhile_cons, hc]
  | cons x xs ih =>
    rw [List.cons_append, List.dropWhile_cons, List.dropWhile_cons]
    by_cases hx : p x
    · rw [if_pos hx, if_pos hx, ih]
    · rw [if_neg hx, if_neg hx, List.cons_append]

theorem pyStrip_decomp (pre mid post : List Char)
    (h1 : ∃ t, mid = '`' :: t) (h2 : ∃ t, mid.reverse = '`' :: t) :
    pyStrip (pre ++ mid ++ post) =
      pre.dropWhile pyWS ++ mid ++ (post.reverse.dropWhile pyWS).reverse := by
  obtain ⟨t1, ht1⟩ := h1
  obtain ⟨t2, ht2⟩ := h2
  have hws : pyWS '`' = false := rfl
  unfold pyStrip
  have step1 : (pre ++ mid ++ post).dropWhile pyWS = pre.dropWhile pyWS ++ (mid ++ post) := by
    rw [List.append_assoc]
    have : mid ++ post = '`' :: (t1 ++ post) := by rw [ht1, List.cons_append]
    rw [this, dropWhile_append_of_head pyWS pre '`' (t1 ++ post) hws, ← this]
  rw [step1]
  have step2 : (pre.dropWhile pyWS ++ (mid ++ post)).reverse =
      post.reverse ++ (mid.reverse ++ (pre.dropWhile pyWS).reverse) := by
    rw [List.reverse_append, List.reverse_append, List.append_assoc]
  rw [step2]
  have step3 : (post.reverse ++ (mid.reverse ++ (pre.dropWhile pyWS).reverse)).dropWhile pyWS =
      post.reverse.dropWhile pyWS ++ (mid.reverse ++ (pre.dropWhile pyWS).reverse) := by
    have : mid.reverse ++ (pre.dropWhile pyWS).reverse =
        '`' :: (t2 ++ (pre.dropWhile pyWS).reverse) := by rw [ht2, List.cons_append]
    rw [this, dropWhile_append_of_head pyWS post.reverse '`' _ hws, ← this]
  rw [step3]
  rw [List.reverse_append, List.reverse_append, List.reverse_reverse, List.reverse_reverse]

theorem mem_dropWhile_of_mem (p : α → Bool) (l : List α) (a : α)
    (ha : a ∈ l.dropWhile p) : a ∈ l :=
  (List.dropWhile_sublist p).subset ha

theorem findSplit_at (th : Char) (tt pre rest : List Char)
    (hpre : ∀ c ∈ pre, c ≠ th) :
    findSplit (th :: tt) (pre ++ ((th :: tt) ++ rest)) = some (pre, rest) := by
  induction pre with
  | nil =>
    rw [List.nil_append]
    have hp : (th :: tt).isPrefixOf ((th :: tt) ++ rest) = true := by
      rw [List.isPrefixOf_iff_prefix]
      exact List.prefix_append (th :: tt) rest
    rw [List.cons_append]
    show findSplit (th :: tt) (th :: (tt ++ rest)) = some ([], rest)
    unfold findSplit
    rw [← List.cons_append, hp]
    simp only [if_true]
    rw [List.drop_left (th :: tt) rest]
  | cons x xs ih =>
    have hx : x ≠ th := hpre x (List.mem_cons_self x xs)
    rw [List.cons_append]
    show findSplit (th :: tt) (x :: (xs ++ ((th :: tt) ++ rest))) = some (x :: xs, rest)
    unfold findSplit
    have hnp : (th :: tt).isPrefixOf (x :: (xs ++ ((th :: tt) ++ rest))) = false := by
      show (th == x && tt.isPrefixOf (xs ++ ((th :: tt) ++ rest))) = false
      have : (th == x) = false := by
        simp only [beq_eq_false_iff_ne, ne_eq]
        exact fun h => hx h.symm
      rw [this, Bool.false_and]
    rw [hnp]
    simp only [Bool.false_eq_true, if_false]
    rw [ih (fun c hc => hpre c (List.mem_cons_of_mem x hc))]

theorem searchTag_fence (pre body post : List Char)
    (hpre : ∀ c ∈ pre, c ≠ '`') (hbody : ∀ c ∈ body, c ≠ '`') :
    searchTag fenceOpen fenceClose
        (pre ++ fenceOpen ++ (body ++ fenceClose ++ post)) = some (pre, body, post) := by
  have hopen : fenceOpen = '`' :: "``json".data := rfl
  have hclose : fenceClose = '`' :: "``".data := rfl
  unfold searchTag
  have h1 : findSplit fenceOpen (pre ++ fenceOpen ++ (body ++ fenceClose ++ post)) =
      some (pre, body ++ fenceClose ++ post) := by
    rw [List.append_assoc, hopen]
    exact findSplit_at '`' ("``json".data) pre (body ++ fenceClose ++ post) hpre
  simp only [h1]
  have h2 : findSplit fenceClose (body ++ fenceClose ++ post) = some (body, post) := by
    rw [List.append_assoc, hclose]
    exact findSplit_at '`' ("``".data) body post hbody
  simp only [h2]

theorem searchTag_none_of_no_open (openT closeT s : List Char)
    (h : findSplit openT s = none) : searchTag openT closeT s = none := by
  unfold searchTag
  rw [h]

theorem removeTagged_id_of_no_open (openT closeT s : List Char)
    (h : findSplit openT s = none) : removeTagged openT closeT s = s := by
  unfold removeTagged
  cases hl : s.length with
  | zero => rfl
  | succ n =>
    show removeTaggedF openT closeT (n + 1) s = s
    unfold removeTaggedF
    rw [searchTag_none_of_no_open openT closeT s h]

theorem fencedBlocks_first (s a inner post : List Char)
    (hs : searchTag fenceOpen fenceClose s = some (a, inner, post))
    (hne : s ≠ []) :
    ∃ rest, fencedBlocks fenceOpen fenceClose s = inner :: rest := by
  unfold fencedBlocks
  cases hl : s.length with
  | zero => exact absurd (List.length_eq_zero.mp hl) hne
  | succ n =>
    refine ⟨fencedBlocksF fenceOpen fenceClose n post, ?_⟩
    simp only [fencedBlocksF, hs]

theorem extract_tool_json_of_first_block (text body : List Char) (rest : List (List Char))
    (v : JVal)
    (hb : fencedBlocks fenceOpen fenceClose text = body :: rest)
    (hp : jsonParse (pyStrip body) = some v) :
    extract_tool_json text = some v := by
  unfold extract_tool_json
  rw [hb, List.findSome?_cons, hp]

/-! ### Helper lemmas: the Sora poll loop -/

theorem soraPollF_timeout (resp : SoraResponses) (statuses : Nat → List Char) (f a : Nat)
    (hres : ∀ i, a ≤ i → i < a + f → ∃ d, resp i = .ok d ∧
      jSubscript d ("status".data) = .ok (.str (statuses i)))
    (hnc : ∀ i, a ≤ i → i < a + f → statuses i ≠ "completed".data) :
    soraPollF resp a f = .error (.timeoutError ("Sora job timed out".data)) := by
  induction f generalizing a with
  | zero => rfl
  | succ f ih =>
    obtain ⟨d, hd1, hd2⟩ := hres a (Nat.le_refl a) (by omega)
    have hne : (statuses a == "completed".data) = false := by
      simp only [beq_eq_false_iff_ne, ne_eq]
      exact hnc a (Nat.le_refl a) (by omega)
    simp only [soraPollF, hd1, hd2, hne]
    exact ih (a + 1)
      (fun i h1 h2 => hres i (by omega) (by omega))
      (fun i h1 h2 => hnc i (by omega) (by omega))

theorem soraPollF_completed (resp : SoraResponses) (statuses urls : Nat → List Char)
    (f a i : Nat)
    (hres : ∀ j, a ≤ j → j < a + f → ∃ d, resp j = .ok d ∧
      jSubscript d ("status".data) = .ok (.str (statuses j)) ∧
      jSubscript d ("video_url".data) = .ok (.str (urls j)))
    (hi : a ≤ i) (hif : i < a + f)
    (hcomp : statuses i = "completed".data)
    (hmin : ∀ j, a ≤ j → j < i → statuses j ≠ "completed".data) :
    soraPollF resp a f = .ok (.str (urls i)) := by
  induction f generalizing a with
  | zero => omega
  | succ f ih =>
    obtain ⟨d, hd1, hd2, hd3⟩ := hres a (Nat.le_refl a) (by omega)
    by_cases hai : a = i
    · subst hai
      have hyes : (statuses a == "completed".data) = true := by
        simp only [beq_iff_eq]
        exact hcomp
      simp only [soraPollF, hd1, hd2, hyes, if_true]
      exact hd3
    · have hne : (statuses a == "completed".data) = false := by
        simp only [beq_eq_false_iff_ne, ne_eq]
        exact hmin a (Nat.le_refl a) (by omega)
      simp only [soraPollF, hd1, hd2, hne]
      exact ih (a + 1)
        (fun j h1 h2 => hres j (by omega) (by omega))
        (by omega) (by omega)
        (fun j h1 h2 => hmin j (by omega) h2)

/-! ### Helper lemmas: MCP startup fold -/

theorem mcpFold_count_all_fail (outcome : StartOutcome) (execBeh : List Char → ServerBeh)
    (cfgs : List (List Char × MCPServerConfig)) (st : MCPState) (n : Nat)
    (hall : ∀ nc ∈ cfgs, ∃ e, outcome nc.1 nc.2 = .error e) :
    (cfgs.foldl (mcpStartStep outcome execBeh) (st, n)).2 = n := by
  induction cfgs generalizing st n with
  | nil => rfl
  | cons nc rest ih =>
    obtain ⟨e, he⟩ := hall nc (List.mem_cons_self nc rest)
    rw [List.foldl_cons]
    have hstep : mcpStartStep outcome execBeh (st, n) nc = (st, n) := by
      unfold mcpStartStep
      rw [he]
    rw [hstep]
    exact ih st n (fun x hx => hall x (List.mem_cons_of_mem nc hx))

theorem mcpFold_count_mono (outcome : StartOutcome) (execBeh : List Char → ServerBeh)
    (cfgs : List (List Char × MCPServerConfig)) (acc : MCPState × Nat) :
    acc.2 ≤ (cfgs.foldl (mcpStartStep outcome execBeh) acc).2 := by
  induction cfgs generalizing acc with
  | nil => exact Nat.le_refl _
  | cons nc rest ih =>
    rw [List.foldl_cons]
    refine Nat.le_trans ?_ (ih (mcpStartStep outcome execBeh acc nc))
    unfold mcpStartStep
    cases outcome nc.1 nc.2 with
    | error e => exact Nat.le_refl _
    | ok ts => exact Nat.le_succ _

theorem mcpFold_count_pos (outcome : StartOutcome) (execBeh : List Char → ServerBeh)
    (cfgs : List (List Char × MCPServerConfig)) (st : MCPState) (n : Nat)
    (hex : ∃ nc ∈ cfgs, ∃ ts, outcome nc.1 nc.2 = .ok ts) :
    0 < (cfgs.foldl (mcpStartStep outcome execBeh) (st, n)).2 := by
  induction cfgs generalizing st n with
  | nil =>
    obtain ⟨w, hw, _⟩ := hex
    exact absurd hw (List.not_mem_nil w)
  | cons nc rest ih =>
    rw [List.foldl_cons]
    obtain ⟨w, hw, ts, hts⟩ := hex
    rcases List.mem_cons.mp hw with hw1 | hw2
    · subst hw1
      have hstep : (mcpStartStep outcome execBeh (st, n) w).2 = n + 1 := by
        unfold mcpStartStep
        rw [hts]
      have := mcpFold_count_mono outcome execBeh rest (mcpStartStep outcome execBeh (st, n) w)
      omega
    · cases hstep : mcpStartStep outcome execBeh (st, n) nc with
      | mk st' n' => exact ih st' n' ⟨w, hw2, ts, hts⟩

/-! ### Claim theorems -/

/-- Claim C1 (code bug).  The claim says: when the normalized final text is
empty but the raw completion text is non-empty, the loop appends the raw text
as an assistant turn and continues without raising.  In the code,
`normalize_output` returns a dict with no `raw` key, so
`response["final"] or response["raw"]` raises `KeyError('raw')` instead: on
the non-empty raw reply `<answer></answer>` (whose normalized final is empty)
the loop raises after one model call, appending nothing. -/
theorem C1_raw_fallback_raises_keyerror :
    ("<answer></answer>".data : List Char) ≠ []
    ∧ (normalize_output ("<answer></answer>".data)).final = []
    ∧ (normalize_output ("<answer></answer>".data)).tool = none
    ∧ generateResponse oracleAnswerTags [] =
        .raised (.keyError ("raw".data)) { llmCalls := 1, execCalls := 0, history := [] } :=
  ⟨by decide, rfl, rfl, rfl⟩

/-- Claim C2 (code bug).  The claim says the loop performs at most 10
iterations and on exhaustion returns an empty result rather than raising.  In
the code, any iteration whose normalized final is empty raises
`KeyError('raw')` at `response["final"] or response["raw"]`, so a run in
which no iteration yields a non-empty final answer raises on its very first
iteration instead of ever returning the empty result. -/
theorem C2_exhaustion_raises_instead_of_empty :
    generateResponse oracleEmptyRaw [] =
      .raised (.keyError ("raw".data)) { llmCalls := 1, execCalls := 0, history := [] } := rfl

/-- Claim C3 (code bug).  The claim says a plain-text model reply `4` with an
empty tool catalog is returned as the final answer after one model call and
zero tool executions.  In the code `json.loads("4")` succeeds with the number
4, so normalization classifies the reply as a tool candidate with empty
final, and the loop then raises `KeyError('raw')` — it returns nothing and
appends nothing (the model-call and tool-execution counts of the claim do
hold at the point of the raise). -/
theorem C3_plain_four_parses_as_tool_and_raises :
    (normalize_output ("4".data)).tool = some (.int 4)
    ∧ (normalize_output ("4".data)).final = []
    ∧ generateResponse oracleFour [] =
        .raised (.keyError ("raw".data)) { llmCalls := 1, execCalls := 0, history := [] } :=
  ⟨rfl, rfl, rfl⟩

/-- Claim C8 (code bug).  The claim says the interpretation returned by
`interpret_tool` in the tool branch is only appended as an assistant turn and
never re-dispatched.  In the code the tool branch is unreachable: a parsed
tool call forces `final = ""`, so `response["final"] or response["raw"]`
raises `KeyError('raw')` before the branch; no tool is ever executed and
`interpret_tool` is never called (`execCalls = 0`). -/
theorem C8_tool_branch_unreachable :
    (normalize_output fencedEchoCall).tool =
      some (.obj [("tool".data, .str ("echo".data)), ("arguments".data, .obj [])])
    ∧ generateResponse oracleFencedTool [] =
        .raised (.keyError ("raw".data)) { llmCalls := 1, execCalls := 0, history := [] } :=
  ⟨rfl, rfl⟩

/-- Claim C5 (confirmed).  After any sequence of `_append_history` calls on
the empty store, each channel's history is exactly the last 20 of the
non-empty turns appended to that channel, in append order (so the length
never exceeds 20 and eviction drops oldest first without reordering), and an
append with empty content leaves the store unchanged. -/
theorem C5_history_cap_and_order :
    (∀ (ops : List (List Char × List Char × List Char)) (c : List Char),
        applyAppends ops (fun _ => []) c =
          takeLast 20 ((ops.filter (fun op => op.1 == c && !op.2.2.isEmpty)).map
            (fun op => ({ role := op.2.1, content := op.2.2 } : Turn)))
        ∧ (applyAppends ops (fun _ => []) c).length ≤ 20)
    ∧ (∀ (h : List Turn) (r : List Char), appendHistory h r [] = h) := by
  constructor
  · intro ops c
    have heq : applyAppends ops (fun _ => []) c =
        takeLast 20 ((ops.filter (fun op => op.1 == c && !op.2.2.isEmpty)).map
          (fun op => ({ role := op.2.1, content := op.2.2 } : Turn))) := by
      rw [applyAppends_channel]
      have h2 := foldl_appendHistory_takeLast c ops []
      rw [List.nil_append] at h2
      exact h2
    refine ⟨heq, ?_⟩
    rw [heq]
    exact length_takeLast_le 20 _
  · exact fun h r => rfl

/-- Claim C6 (confirmed).  With the registry started, `execute` is a total
function into text (it cannot raise); an unregistered name yields the
"Unknown tool" message, which contains the requested name; a backend
exception is caught and rendered as the traceback diagnostic text. -/
theorem C6_execute_contract (st : MCPState) (name : List Char) (args : JVal)
    (hstarted : st.started = true) :
    (st.tools.find? (fun kv => kv.1 == name) = none →
        mcpExecute st name args = "Unknown tool '".data ++ name ++ "'".data
        ∧ ∃ a b, mcpExecute st name args = a ++ name ++ b)
    ∧ (∀ (tool : List Char × ToolInfo) (server : List Char × ServerBeh) (e : List Char),
        st.tools.find? (fun kv => kv.1 == name) = some tool →
        st.servers.find? (fun kv => kv.1 == tool.2.server_name) = some server →
        server.2 name args = .error e →
        mcpExecute st name args = formatExc e) := by
  constructor
  · intro hfind
    have heq : mcpExecute st name args = "Unknown tool '".data ++ name ++ "'".data := by
      unfold mcpExecute
      rw [hstarted]
      simp only [Bool.not_true, Bool.false_eq_true, if_false, hfind, Option.map_none']
    exact ⟨heq, "Unknown tool '".data, "'".data, heq⟩
  · intro tool server e hfind hsrv hbeh
    unfold mcpExecute
    rw [hstarted]
    simp only [Bool.not_true, Bool.false_eq_true, if_false, hfind, hsrv, Option.map_some', hbeh]

/-- Witness for C6 at the concrete input of the spec's testable property:
`execute("nonexistent_tool", {})` on a started empty registry returns the
"Unknown tool" text containing the name. -/
theorem C6_execute_contract_witness :
    mcpExecute mcpStartedEmpty ("nonexistent_tool".data) (.obj []) =
      "Unknown tool '".data ++ "nonexistent_tool".data ++ "'".data :=
  ((C6_execute_contract mcpStartedEmpty ("nonexistent_tool".data) (.obj []) rfl).1 rfl).1

/-- Claim C10 (confirmed).  For well-typed polled responses (each carrying a
string `status` and `video_url`), `poll` returns a video URL iff some
response within the 120-attempt bound has status `completed`; it returns the
URL of the first such response (so a `failed` status never stops polling and
is never reported distinctly); if no response within the bound is
`completed`, it raises `TimeoutError`. -/
theorem C10_poll_completed_iff (resp : SoraResponses) (statuses urls : Nat → List Char)
    (hres : ∀ i, i < 120 → ∃ d, resp i = .ok d ∧
      jSubscript d ("status".data) = .ok (.str (statuses i)) ∧
      jSubscript d ("video_url".data) = .ok (.str (urls i))) :
    ((∃ i, i < 120 ∧ statuses i = "completed".data) ↔ ∃ u, soraPoll resp 120 = .ok u)
    ∧ ((∀ i, i < 120 → statuses i ≠ "completed".data) →
        soraPoll resp 120 = .error (.timeoutError ("Sora job timed out".data)))
    ∧ (∀ i, i < 120 → statuses i = "completed".data →
        (∀ j, j < i → statuses j ≠ "completed".data) →
        soraPoll resp 120 = .ok (.str (urls i))) := by
  have hfirst : ∀ i, i < 120 → statuses i = "completed".data →
      (∀ j, j < i → statuses j ≠ "completed".data) →
      soraPoll resp 120 = .ok (.str (urls i)) := by
    intro i hi hcomp hmin
    exact soraPollF_completed resp statuses urls 120 0 i
      (fun j h1 h2 => hres j (by omega))
      (Nat.zero_le i) (by omega) hcomp
      (fun j h1 h2 => hmin j h2)
  have htimeout : (∀ i, i < 120 → statuses i ≠ "completed".data) →
      soraPoll resp 120 = .error (.timeoutError ("Sora job timed out".data)) := by
    intro hno
    exact soraPollF_timeout resp statuses 120 0
      (fun i h1 h2 => (hres i (by omega)).imp (fun d hd => ⟨hd.1, hd.2.1⟩))
      (fun i h1 h2 => hno i (by omega))
  refine ⟨⟨?_, ?_⟩, htimeout, hfirst⟩
  · intro hex
    have hex' : ∃ i, i < 120 ∧ statuses i = "completed".data := hex
    have hdec : DecidablePred (fun i => i < 120 ∧ statuses i = "completed".data) := by
      intro i
      exact instDecidableAnd
    let k := @Nat.find _ hdec hex'
    have hk := @Nat.find_spec _ hdec hex'
    have hkmin := fun m hm => @Nat.find_min _ hdec hex' m hm
    refine ⟨.str (urls k), hfirst k hk.1 hk.2 ?_⟩
    intro j hj hcj
    exact hkmin j hj ⟨by omega, hcj⟩
  · intro hu
    by_contra hno
    push_neg at hno
    obtain ⟨u, hu⟩ := hu
    rw [htimeout hno] at hu
    exact Except.noConfusion hu

/-- Witness for C10: a run whose first poll reports `failed` and whose second
reports `completed` returns the second response's URL — the `failed` status
neither stops polling nor surfaces as an error. -/
theorem C10_poll_completed_iff_witness :
    soraStatusW 0 = "failed".data
    ∧ soraPoll soraRespFailedThenDone 120 = .ok (.str ("https://x/y.mp4".data)) := by
  have hres : ∀ i, i < 120 → ∃ d, soraRespFailedThenDone i = .ok d ∧
      jSubscript d ("status".data) = .ok (.str (soraStatusW i)) ∧
      jSubscript d ("video_url".data) = .ok (.str (soraUrlW i)) := by
    intro i _
    by_cases h1 : i = 1
    · subst h1
      exact ⟨_, rfl, rfl, rfl⟩
    · by_cases h0 : i = 0
      · subst h0
        exact ⟨_, rfl, rfl, rfl⟩
      · refine ⟨.obj [("status".data, .str ("pending".data)),
          ("video_url".data, .str [])], ?_, ?_, ?_⟩
        · simp [soraRespFailedThenDone, h1, h0]
        · simp [soraStatusW, h1, h0]
          rfl
        · simp [soraUrlW, h1]
          rfl
  have h := (C10_poll_completed_iff soraRespFailedThenDone soraStatusW soraUrlW hres).2.2
  refine ⟨rfl, ?_⟩
  have := h 1 (by omega) rfl (by
    intro j hj
    have hj0 : j = 0 := by omega
    subst hj0
    decide)
  exact this

/-- Claim C9 counterexample.  `start()` raises even though zero backends are
configured and the per-backend outcome function never fails: a config file
whose content is not valid JSON makes `_load_server_configs` raise
`ValueError`, contradicting "raises only when at least one backend is
configured and every configured backend fails". -/
theorem C9_counterexample :
    mcpStart (CfgSource.content ("not json".data)) (fun _ => none)
      (fun _ _ => .ok []) (fun _ => fun _ _ => .ok [])
      { started := false, servers := [], tools := [] } =
      .error (.valueError ("Invalid JSON in MCP config".data)) := rfl

/-- Claim C9 (corrected).  Characterization of `MCPManager.start` on a fresh
manager: a config-loading failure (invalid JSON, non-object document, unset
environment variable) propagates; zero loaded configs (including a missing
file) is a successful, empty startup; with configs present, start raises
`RuntimeError` exactly when every configured backend fails, and succeeds
(leaving the registry started) when at least one backend starts. -/
theorem C9_start_characterization (src : CfgSource) (env : List Char → Option (List Char))
    (outcome : StartOutcome) (execBeh : List Char → ServerBeh) (st : MCPState)
    (hst : st.started = false) :
    (∀ e, loadServerConfigs src env = .error e →
        mcpStart src env outcome execBeh st = .error e)
    ∧ (loadServerConfigs src env = .ok [] →
        mcpStart src env outcome execBeh st = .ok { st with started := true })
    ∧ (∀ cfgs, loadServerConfigs src env = .ok cfgs → cfgs ≠ [] →
        (∀ nc ∈ cfgs, ∃ e, outcome nc.1 nc.2 = .error e) →
        mcpStart src env outcome execBeh st =
          .error (.runtimeError ("No MCP servers could be started".data)))
    ∧ (∀ cfgs, loadServerConfigs src env = .ok cfgs →
        (∃ nc ∈ cfgs, ∃ ts, outcome nc.1 nc.2 = .ok ts) →
        ∃ st', mcpStart src env outcome execBeh st = .ok st' ∧ st'.started = true) := by
  refine ⟨?_, ?_, ?_, ?_⟩
  · intro e he
    unfold mcpStart
    simp only [hst, Bool.false_eq_true, if_false, he]
  · intro he
    unfold mcpStart
    simp only [hst, Bool.false_eq_true, if_false, he, List.isEmpty_nil, if_true]
  · intro cfgs hc hne hall
    unfold mcpStart
    simp only [hst, Bool.false_eq_true, if_false, hc]
    have hie : cfgs.isEmpty = false := by
      cases cfgs with
      | nil => exact absurd rfl hne
      | cons a l => rfl
    rw [hie]
    simp only [Bool.false_eq_true, if_false]
    rw [mcpFold_count_all_fail outcome execBeh cfgs st 0 hall]
    rfl
  · intro cfgs hc hex
    unfold mcpStart
    simp only [hst, Bool.false_eq_true, if_false, hc]
    have hne : cfgs ≠ [] := by
      obtain ⟨w, hw, _⟩ := hex
      intro hnil
      rw [hnil] at hw
      exact absurd hw (List.not_mem_nil w)
    have hie : cfgs.isEmpty = false := by
      cases cfgs with
      | nil => exact absurd rfl hne
      | cons a l => rfl
    rw [hie]
    simp only [Bool.false_eq_true, if_false]
    have hpos := mcpFold_count_pos outcome execBeh cfgs st 0 hex
    have hnz : (cfgs.foldl (mcpStartStep outcome execBeh) (st, 0)).2 ≠ 0 := by omega
    rw [if_neg hnz]
    exact ⟨_, rfl, rfl⟩

/-- Witness for C9: a missing config file is a valid startup that yields a
started, empty registry. -/
theorem C9_start_characterization_witness :
    mcpStart CfgSource.missing (fun _ => none) (fun _ _ => .ok [])
      (fun _ => fun _ _ => .ok []) { started := false, servers := [], tools := [] } =
      .ok { started := true, servers := [], tools := [] } :=
  (C9_start_characterization CfgSource.missing (fun _ => none) (fun _ _ => .ok [])
    (fun _ => fun _ _ => .ok []) { started := false, servers := [], tools := [] } rfl).2.1 rfl

/-- `extract_reasoning_and_answer` when the text has no think section and its
stripped form has no answer section: reasoning is empty and the answer is the
(idempotently) stripped text. -/
theorem extract_ra_no_tags (text : List Char)
    (hthink : findSplit thinkOpen text = none)
    (hanswer : findSplit answerOpen (pyStrip text) = none) :
    extract_reasoning_and_answer text = ([], pyStrip (pyStrip text)) := by
  unfold extract_reasoning_and_answer
  rw [searchTag_none_of_no_open _ thinkClose _ hthink]
  rw [removeTagged_id_of_no_open _ thinkClose _ hthink]
  simp only [searchTag_none_of_no_open _ answerClose _ hanswer]

/-- Claim C4 (confirmed).  For a well-formed `{"tool": ..., "arguments": {...}}`
payload inside a ```json fence, surrounded by arbitrary prose (prose:
backtick-free on the left of the fence and inside it, and introducing no
think/answer sections), normalization returns the parsed object as `tool`
and the empty string as `final`. -/
theorem C4_fenced_tool_extraction (pre body post : List Char) (v : JVal)
    (hpre : ∀ c ∈ pre, c ≠ '`')
    (hbody : ∀ c ∈ body, c ≠ '`')
    (hthink : findSplit thinkOpen (pre ++ (fenceOpen ++ body ++ fenceClose) ++ post) = none)
    (hanswer : findSplit answerOpen
        (pyStrip (pre ++ (fenceOpen ++ body ++ fenceClose) ++ post)) = none)
    (hjson : jsonParse (pyStrip body) = some v)
    (hshape : isToolCallShape v = true) :
    (normalize_output (pre ++ (fenceOpen ++ body ++ fenceClose) ++ post)).final = []
    ∧ (normalize_output (pre ++ (fenceOpen ++ body ++ fenceClose) ++ post)).tool = some v := by
  have h1mid : ∃ t, fenceOpen ++ body ++ fenceClose = '`' :: t := by
    refine ⟨("``json".data ++ body) ++ fenceClose, ?_⟩
    rw [show fenceOpen = '`' :: "``json".data from rfl, List.cons_append, List.cons_append]
  have h2mid : ∃ t, (fenceOpen ++ body ++ fenceClose).reverse = '`' :: t := by
    refine ⟨"``".data ++ (body.reverse ++ fenceOpen.reverse), ?_⟩
    rw [List.reverse_append, List.reverse_append]
    rw [show fenceClose.reverse = '`' :: "``".data from rfl]
    rw [List.cons_append]
  have hstrip1 := pyStrip_decomp pre (fenceOpen ++ body ++ fenceClose) post h1mid h2mid
  have hstrip2 := pyStrip_decomp (pre.dropWhile pyWS) (fenceOpen ++ body ++ fenceClose)
    ((post.reverse.dropWhile pyWS).reverse) h1mid h2mid
  have hra := extract_ra_no_tags _ hthink hanswer
  have hanswer2 : pyStrip (pyStrip (pre ++ (fenceOpen ++ body ++ fenceClose) ++ post)) =
      (pre.dropWhile pyWS).dropWhile pyWS ++ (fenceOpen ++ body ++ fenceClose) ++
        (((post.reverse.dropWhile pyWS).reverse).reverse.dropWhile pyWS).reverse := by
    rw [hstrip1, hstrip2]
  have hpre2 : ∀ c ∈ (pre.dropWhile pyWS).dropWhile pyWS, c ≠ '`' :=
    fun c hc => hpre c (mem_dropWhile_of_mem pyWS pre c
      (mem_dropWhile_of_mem pyWS (pre.dropWhile pyWS) c hc))
  have hsearch : searchTag fenceOpen fenceClose
      (pyStrip (pyStrip (pre ++ (fenceOpen ++ body ++ fenceClose) ++ post))) =
      some ((pre.dropWhile pyWS).dropWhile pyWS, body,
        (((post.reverse.dropWhile pyWS).reverse).reverse.dropWhile pyWS).reverse) := by
    rw [hanswer2]
    have hrearr : (pre.dropWhile pyWS).dropWhile pyWS ++ (fenceOpen ++ body ++ fenceClose) ++
        (((post.reverse.dropWhile pyWS).reverse).reverse.dropWhile pyWS).reverse =
        (pre.dropWhile pyWS).dropWhile pyWS ++ fenceOpen ++
          (body ++ fenceClose ++
            (((post.reverse.dropWhile pyWS).reverse).reverse.dropWhile pyWS).reverse) := by
      simp [List.append_assoc]
    rw [hrearr]
    exact searchTag_fence _ body _ hpre2 hbody
  have hne : pyStrip (pyStrip (pre ++ (fenceOpen ++ body ++ fenceClose) ++ post)) ≠ [] := by
    rw [hanswer2]
    intro h
    rcases List.append_eq_nil.mp h with ⟨h1, _⟩
    rcases List.append_eq_nil.mp h1 with ⟨_, h3⟩
    obtain ⟨t, ht⟩ := h1mid
    rw [ht] at h3
    exact List.cons_ne_nil _ _ h3
  obtain ⟨rest, hblocks⟩ := fencedBlocks_first _ _ _ _ hsearch hne
  have htool : extract_tool_json
      (pyStrip (pyStrip (pre ++ (fenceOpen ++ body ++ fenceClose) ++ post))) = some v :=
    extract_tool_json_of_first_block _ body rest v hblocks hjson
  unfold normalize_output
  rw [hra]
  simp only [htool]
  constructor
  · first
    | rfl
    | trivial
  · first
    | rfl
    | trivial

/-- Witness for C4 at a concrete fenced payload with prose on both sides. -/
theorem C4_fenced_tool_extraction_witness :
    (normalize_output rawC4).final = [] ∧ (normalize_output rawC4).tool = some toolC4 :=
  C4_fenced_tool_extraction preC4 bodyC4 postC4 toolC4
    (by decide) (by decide) rfl rfl rfl rfl

/-- Every path of the legacy video handler produces exactly one reply. -/
theorem oldHandleVideo_ne_nil (ctx : OldCtx) (text : List Char) :
    oldHandleVideo ctx text ≠ [] := by
  unfold oldHandleVideo
  cases ctx.genVideo with
  | error e => exact List.cons_ne_nil _ _
  | ok vo =>
    cases vo with
    | none => exact List.cons_ne_nil _ _
    | some video =>
      cases ctx.uploadRes with
      | ok u => exact List.cons_ne_nil _ _
      | error e => exact List.cons_ne_nil _ _

/-- Claim C7 counterexample.  In the current orchestrator
(`handle_slack_message`) there is no per-event exception boundary: on a
normal direct message whose processing raises (here the `KeyError('raw')` of
an empty model reply), no message is sent at all — a silent drop, not an
apologetic reply. -/
theorem C7_counterexample :
    (handleSlackMessage ctxEmptyModel (fun _ => []) eventDM).sent = []
    ∧ (handleSlackMessage ctxEmptyModel (fun _ => []) eventDM).raised =
        some (.keyError ("raw".data)) :=
  ⟨rfl, rfl⟩

/-- Claim C7 (corrected).  In the legacy implementation the per-event
boundary exists: every normal inbound message (sender ≠ bot) produces at
least one reply, and an exception raised inside the per-event try block (here
from the tool-catalog rendering, the one raising operation of the modelled
body) is converted into the apologetic message echoing the error text. -/
theorem C7_legacy_event_boundary (ctx : OldCtx) (convs : OldConvs) (event : SlackEvent)
    (huser : event.user ≠ ctx.botId) :
    (oldProcessMessage ctx convs event).1 ≠ []
    ∧ (∀ e, ctx.fmtTools = .error e →
        ((("make a video of".data).isPrefixOf (pyLower (oldMsgText ctx event))
          && ctx.hasVideoConfig) = false) →
        (oldProcessMessage ctx convs event).1 =
          [.say ("I'm sorry, I encountered an error: ".data ++ e.pystr)]) := by
  constructor
  · by_cases hv : (("make a video of".data).isPrefixOf (pyLower (oldMsgText ctx event))
        && ctx.hasVideoConfig) = true
    · simp only [oldProcessMessage, huser, if_false, hv, if_true]
      exact oldHandleVideo_ne_nil ctx (oldMsgText ctx event)
    · rw [Bool.not_eq_true] at hv
      simp only [oldProcessMessage, huser, if_false, hv, Bool.false_eq_true]
      cases hfmt : ctx.fmtTools with
      | error e => exact List.cons_ne_nil _ _
      | ok t => exact List.cons_ne_nil _ _
  · intro e he hguard
    simp only [oldProcessMessage, huser, if_false, hguard, Bool.false_eq_true, he]

/-- Witness for C7 at a concrete context whose tool-catalog rendering raises
`RuntimeError("MCP manager unavailable")` on a normal direct message. -/
theorem C7_legacy_event_boundary_witness :
    (oldProcessMessage oldCtxFmtFails (fun _ => []) eventDM).1 =
      [.say ("I'm sorry, I encountered an error: ".data ++ ("MCP manager unavailable".data))] :=
  (C7_legacy_event_boundary oldCtxFmtFails (fun _ => []) eventDM (by decide)).2
    (.runtimeError ("MCP manager unavailable".data)) rfl (by decide)
